import Mathlib

/- Verification of the image-analysis front-end (src/App.tsx): a shallow embedding of
the component state, the model lifecycle controller with bounded retry, the ingestion
handlers and the asynchronous classification pipeline, together with an interleaving
event semantics for the pending asynchronous work. -/

namespace ImageAnalyze

/-- Prediction record returned by the classifier (App.tsx lines 6-9); the probability
is modelled as a rational number. -/
structure Prediction where
  className : String
  probability : Rat
deriving DecidableEq, Repr

/-- Model of a browser File object: a name, a declared MIME type and its content. -/
structure File where
  name : String
  type : String
  content : String
deriving DecidableEq, Repr

/-- Model of JS String.prototype.startsWith: prefix test on the character sequence. -/
def strStartsWith (s pre : String) : Bool :=
  pre.data.isPrefixOf s.data

/-- Component state, one field per useState/useRef hook (App.tsx lines 12-19). The
model handle is opaque and modelled as a numeric id. -/
structure AppState where
  image : Option String
  predictions : List Prediction
  isAnalyzing : Bool
  isModelLoading : Bool
  error : Option String
  modelRef : Option Nat
  retryCount : Nat
deriving DecidableEq, Repr

/-- Initial hook values (App.tsx lines 12-19). -/
def initialApp : AppState :=
  { image := none, predictions := [], isAnalyzing := false, isModelLoading := true,
    error := none, modelRef := none, retryCount := 0 }

/-- Configuration record passed to mobilenet.load (App.tsx lines 32-35). -/
structure LoadConfig where
  version : Nat
  alpha : Rat
deriving DecidableEq, Repr

/-- Fixed load configuration of App.tsx lines 32-35. -/
def mobilenetLoadConfig : LoadConfig := { version := 2, alpha := 1 }

/-- Synchronous prologue of loadModel up to the first await (App.tsx lines 21-35):
raises the loading flag, clears the error message, and issues the asynchronous load
request carrying the fixed configuration. The model handle is not touched here. -/
def loadModelStart (s : AppState) : AppState × LoadConfig :=
  ({ s with isModelLoading := true, error := none }, mobilenetLoadConfig)

/-- Outcome of an awaited model load: a loaded model handle, or a thrown error. -/
inductive LoadOutcome where
  | ok (m : Nat)
  | fail
deriving DecidableEq, Repr

/-- Informational message set after the n-th consecutive load failure (App.tsx
line 44). -/
def retryMsg (n : Nat) : String :=
  "Loading failed. Retrying... (Attempt " ++ toString n ++ "/3)"

/-- Terminal message set when the retries are exhausted (App.tsx line 47). -/
def terminalMsg : String :=
  "Unable to load AI model. Please check your internet connection and refresh the page."

/-- Resolution of the awaited load (App.tsx lines 32-50): on success store the handle,
lower the loading flag and reset the retry counter; on failure either increment the
counter, set the retry message and schedule another attempt after 2000 ms (when the
counter was below 3), or set the terminal message and lower the loading flag. The
returned option is the delay of the setTimeout issued, if any. -/
def loadModelResolve : LoadOutcome → AppState → AppState × Option Nat
  | .ok m, s => ({ s with modelRef := some m, isModelLoading := false, retryCount := 0 }, none)
  | .fail, s =>
    if s.retryCount < 3 then
      ({ s with retryCount := s.retryCount + 1,
                error := some (retryMsg (s.retryCount + 1)) }, some 2000)
    else
      ({ s with error := some terminalMsg, isModelLoading := false }, none)

/-- handleRetry (App.tsx lines 69-72): reset the retry counter and call loadModel. -/
def handleRetry (s : AppState) : AppState × LoadConfig :=
  loadModelStart { s with retryCount := 0 }

/-- Error message of App.tsx line 76. -/
def modelNotLoadedMsg : String := "Model not loaded yet. Please try again in a moment."

/-- Error message of App.tsx line 93. -/
def analysisErrorMsg : String := "Error analyzing image. Please try again."

/-- Error message of App.tsx lines 105 and 142. -/
def unsupportedMsg : String := "Please upload an image file (JPG, PNG)"

/-- Error message of App.tsx lines 120 and 139. -/
def readErrorMsg : String := "Error reading file. Please try again."

/-- Error message of App.tsx lines 117 and 136. -/
def imgErrorMsg : String := "Error loading image. Please try another file."

/-- Synchronous part of analyzeImage up to the classify await (App.tsx lines 74-90):
with no model handle it only sets the not-ready error message and returns; otherwise
it raises the analyzing flag, clears the error and issues classify(imageElement, 5).
The issued request (image, topK) is returned, none when no inference is performed. -/
def analyzeImageStart (img : String) (s : AppState) : AppState × Option (String × Nat) :=
  match s.modelRef with
  | none => ({ s with error := some modelNotLoadedMsg }, none)
  | some _ => ({ s with isAnalyzing := true, error := none }, some (img, 5))

/-- Outcome of an awaited classify call: a prediction list, or a thrown error. -/
inductive ClassifyOutcome where
  | ok (preds : List Prediction)
  | err
deriving DecidableEq, Repr

/-- Resolution of the awaited classify (App.tsx lines 90-97): on success the returned
list is stored unchanged; on failure the analysis error message is set; the finally
block lowers the analyzing flag. -/
def analyzeImageResolve : ClassifyOutcome → AppState → AppState
  | .ok preds, s => { s with predictions := preds, isAnalyzing := false }
  | .err, s => { s with error := some analysisErrorMsg, isAnalyzing := false }

/-- Model of FileReader.readAsDataURL followed by reading e.target.result. -/
def dataUrlOf (f : File) : String :=
  "data:" ++ f.type ++ ";base64," ++ f.content

/-- Synchronous part of handleImageUpload (App.tsx lines 100-107 and 121): an empty
selection returns with no state change; a non-image MIME type sets the
unsupported-type error; otherwise a FileReader read of the file is started (the
returned option). -/
def handleImageUpload (files : List File) (s : AppState) : AppState × Option File :=
  match files.head? with
  | none => (s, none)
  | some f =>
    if strStartsWith f.type "image/" then (s, some f)
    else ({ s with error := some unsupportedMsg }, none)

/-- Synchronous part of handleDrop (App.tsx lines 124-144): with a first file of image
MIME type a FileReader read is started; any other case, including a drop carrying no
file, sets the unsupported-type error. -/
def handleDrop (files : List File) (s : AppState) : AppState × Option File :=
  match files.head? with
  | some f =>
    if strStartsWith f.type "image/" then (s, some f)
    else ({ s with error := some unsupportedMsg }, none)
  | none => ({ s with error := some unsupportedMsg }, none)

/-- FileReader onload continuation (App.tsx lines 110-118 and 129-137): store the data
URL as the current image and clear the predictions; a fresh img element then starts
decoding that URL. -/
def readerOnload (dataUrl : String) (s : AppState) : AppState :=
  { s with image := some dataUrl, predictions := [] }

/-- Clear button handler (App.tsx lines 210-214). -/
def clearImage (s : AppState) : AppState :=
  { s with image := none, predictions := [], error := none }

/-- Whole-system state: the component state plus the pending asynchronous work:
count of in-flight model loads, scheduled retry-timer delays, in-flight file reads,
img elements awaiting decode, and in-flight classify calls with their requested
topK. -/
structure SysState where
  app : AppState
  inFlightLoads : Nat
  retryTimers : List Nat
  pendingReads : List File
  pendingImgLoads : List String
  pendingClassifies : List (String × Nat)
deriving DecidableEq, Repr

/-- Initial system state: on mount, the effect of App.tsx lines 53-67 has invoked
loadModel once, so one load is in flight. -/
def initSys : SysState :=
  { app := (loadModelStart initialApp).1, inFlightLoads := 1, retryTimers := [],
    pendingReads := [], pendingImgLoads := [], pendingClassifies := [] }

/-- Events of the interleaving semantics: resolutions of pending asynchronous work and
user actions. Indices select which pending item resolves. -/
inductive Event where
  | loadResolve (out : LoadOutcome)
  | timerFire (i : Nat)
  | retryClick
  | pick (files : List File)
  | dropFiles (files : List File)
  | readerDone (i : Nat)
  | readerFail (i : Nat)
  | imgDone (i : Nat)
  | imgFail (i : Nat)
  | classifyDone (i : Nat) (out : ClassifyOutcome)
  | clearClick
deriving DecidableEq, Repr

/-- Small-step semantics of one event; none when the event is not enabled. Every
continuation applies the corresponding App.tsx handler fragment to the component
state; classify resolutions are applied unconditionally, exactly as the source
applies setPredictions with no check that the request is still the active one. -/
def step : Event → SysState → Option SysState
  | .loadResolve out, s =>
    if s.inFlightLoads = 0 then none
    else some { s with
      app := (loadModelResolve out s.app).1,
      inFlightLoads := s.inFlightLoads - 1,
      retryTimers := (loadModelResolve out s.app).2.toList ++ s.retryTimers }
  | .timerFire i, s =>
    (s.retryTimers.get? i).map (fun _ => { s with
      app := (loadModelStart s.app).1,
      inFlightLoads := s.inFlightLoads + 1,
      retryTimers := s.retryTimers.eraseIdx i })
  | .retryClick, s =>
    some { s with app := (handleRetry s.app).1, inFlightLoads := s.inFlightLoads + 1 }
  | .pick files, s =>
    some { s with
      app := (handleImageUpload files s.app).1,
      pendingReads := (handleImageUpload files s.app).2.toList ++ s.pendingReads }
  | .dropFiles files, s =>
    some { s with
      app := (handleDrop files s.app).1,
      pendingReads := (handleDrop files s.app).2.toList ++ s.pendingReads }
  | .readerDone i, s =>
    (s.pendingReads.get? i).map (fun f => { s with
      app := readerOnload (dataUrlOf f) s.app,
      pendingReads := s.pendingReads.eraseIdx i,
      pendingImgLoads := dataUrlOf f :: s.pendingImgLoads })
  | .readerFail i, s =>
    (s.pendingReads.get? i).map (fun _ => { s with
      app := { s.app with error := some readErrorMsg },
      pendingReads := s.pendingReads.eraseIdx i })
  | .imgDone i, s =>
    (s.pendingImgLoads.get? i).map (fun url => { s with
      app := (analyzeImageStart url s.app).1,
      pendingImgLoads := s.pendingImgLoads.eraseIdx i,
      pendingClassifies := (analyzeImageStart url s.app).2.toList ++ s.pendingClassifies })
  | .imgFail i, s =>
    (s.pendingImgLoads.get? i).map (fun _ => { s with
      app := { s.app with error := some imgErrorMsg },
      pendingImgLoads := s.pendingImgLoads.eraseIdx i })
  | .classifyDone i out, s =>
    (s.pendingClassifies.get? i).map (fun _ => { s with
      app := analyzeImageResolve out s.app,
      pendingClassifies := s.pendingClassifies.eraseIdx i })
  | .clearClick, s => some { s with app := clearImage s.app }

/-- Event step as constrained by the rendered UI: the retry button exists only on the
error screen (App.tsx lines 150-177), i.e. when the loading flag is down and an error
message is displayed. All other events step as in the raw semantics. -/
def uiStep (e : Event) (s : SysState) : Option SysState :=
  match e with
  | .retryClick =>
    if s.app.isModelLoading = false ∧ s.app.error ≠ none then step e s else none
  | _ => step e s

/-- Run of a raw event trace. -/
def run : List Event → SysState → Option SysState
  | [], s => some s
  | e :: es, s => (step e s).bind (run es)

/-- Run of an event trace under the UI constraint. -/
def uiRun : List Event → SysState → Option SysState
  | [], s => some s
  | e :: es, s => (uiStep e s).bind (uiRun es)

/-- Event trace of a run in which every load attempt fails: the initial in-flight load
fails, and before each later failure the pending retry timer fires. -/
def failTrace : Nat → List Event
  | 0 => []
  | n + 1 =>
    failTrace n ++
      (if n = 0 then [Event.loadResolve .fail]
       else [Event.timerFire 0, Event.loadResolve .fail])

/-- Sample image file of PNG MIME type. -/
def pngFile : File := { name := "photo.png", type := "image/png", content := "PNGDATA" }

/-- Sample image file of JPEG MIME type. -/
def jpgFile : File := { name := "photo.jpg", type := "image/jpeg", content := "JPGDATA" }

/-- Sample non-image file. -/
def txtFile : File := { name := "notes.txt", type := "text/plain", content := "hello" }

/-- Classifier output for the first sample image. -/
def predsA : List Prediction := [{ className := "golden retriever", probability := 1 }]

/-- Classifier output for the second sample image. -/
def predsB : List Prediction := [{ className := "sports car", probability := 1 }]

/-- Sample classifier output sorted by non-increasing probability. -/
def samplePreds : List Prediction :=
  [{ className := "tabby cat", probability := 1 },
   { className := "tiger cat", probability := 0 }]

/-- Interleaving in which image B (jpg) is submitted while image A (png) has a classify
call in flight, and A's classify resolves after B's. -/
def raceTrace : List Event :=
  [Event.loadResolve (.ok 1), Event.pick [pngFile], Event.readerDone 0, Event.imgDone 0,
   Event.pick [jpgFile], Event.readerDone 0, Event.imgDone 0,
   Event.classifyDone 0 (.ok predsB), Event.classifyDone 0 (.ok predsA)]

/-- Interleaving in which the manual retry entry point is invoked (as a raw function
call) while the automatic retry timer of the first failure is still pending, and the
timer then fires. -/
def unguardedRetryTrace : List Event :=
  [Event.loadResolve .fail, Event.retryClick, Event.timerFire 0]

/-- Component state holding a loaded model handle. -/
def readyApp : AppState :=
  { initialApp with isModelLoading := false, modelRef := some 1 }

/-- System state holding a loaded model handle and no pending work. -/
def readySys : SysState :=
  { initSys with app := readyApp, inFlightLoads := 0 }

/-- A prediction list sorted by non-increasing probability. -/
def sortedDesc (l : List Prediction) : Prop :=
  l.Pairwise (fun a b => b.probability ≤ a.probability)

/-- Every probability of the list lies in the unit interval. -/
def probsValid (l : List Prediction) : Prop :=
  ∀ p ∈ l, 0 ≤ p.probability ∧ p.probability ≤ 1

/-- Guard invariant of the load controller under the UI constraint: the in-flight
loads and pending retry timers together never exceed one, and when the loading flag
is down there is no in-flight load and no pending timer. -/
def uiInv (s : SysState) : Prop :=
  s.inFlightLoads + s.retryTimers.length ≤ 1 ∧
  (s.app.isModelLoading = false → s.inFlightLoads = 0 ∧ s.retryTimers = [])

theorem run_inv (P : SysState → Prop)
    (hstep : ∀ e t t2, step e t = some t2 → P t → P t2) :
    ∀ es t t2, run es t = some t2 → P t → P t2 := by
  intro es
  induction es with
  | nil =>
    intro t t2 hr hP
    simp only [run, Option.some.injEq] at hr
    exact hr ▸ hP
  | cons e es ih =>
    intro t t2 hr hP
    simp only [run] at hr
    cases hs : step e t with
    | none => rw [hs] at hr; exact absurd hr (by simp)
    | some t1 =>
      rw [hs] at hr
      simp only [Option.some_bind] at hr
      exact ih t1 t2 hr (hstep e t t1 hs hP)

theorem uiRun_inv (P : SysState → Prop)
    (hstep : ∀ e t t2, uiStep e t = some t2 → P t → P t2) :
    ∀ es t t2, uiRun es t = some t2 → P t → P t2 := by
  intro es
  induction es with
  | nil =>
    intro t t2 hr hP
    simp only [uiRun, Option.some.injEq] at hr
    exact hr ▸ hP
  | cons e es ih =>
    intro t t2 hr hP
    simp only [uiRun] at hr
    cases hs : uiStep e t with
    | none => rw [hs] at hr; exact absurd hr (by simp)
    | some t1 =>
      rw [hs] at hr
      simp only [Option.some_bind] at hr
      exact ih t1 t2 hr (hstep e t t1 hs hP)

theorem analyzeImageStart_frame (url : String) (a : AppState) :
    (analyzeImageStart url a).1.isModelLoading = a.isModelLoading ∧
    (analyzeImageStart url a).1.modelRef = a.modelRef ∧
    (analyzeImageStart url a).1.retryCount = a.retryCount := by
  cases hm : a.modelRef <;> simp [analyzeImageStart, hm]

theorem analyzeImageResolve_frame (out : ClassifyOutcome) (a : AppState) :
    (analyzeImageResolve out a).isModelLoading = a.isModelLoading ∧
    (analyzeImageResolve out a).modelRef = a.modelRef ∧
    (analyzeImageResolve out a).retryCount = a.retryCount := by
  cases out <;> simp [analyzeImageResolve]

theorem handleImageUpload_frame (files : List File) (a : AppState) :
    (handleImageUpload files a).1.isModelLoading = a.isModelLoading ∧
    (handleImageUpload files a).1.modelRef = a.modelRef ∧
    (handleImageUpload files a).1.retryCount = a.retryCount := by
  unfold handleImageUpload
  cases files.head? with
  | none => simp
  | some f => by_cases hb : strStartsWith f.type "image/" <;> simp [hb]

theorem handleDrop_frame (files : List File) (a : AppState) :
    (handleDrop files a).1.isModelLoading = a.isModelLoading ∧
    (handleDrop files a).1.modelRef = a.modelRef ∧
    (handleDrop files a).1.retryCount = a.retryCount := by
  unfold handleDrop
  cases files.head? with
  | none => simp
  | some f => by_cases hb : strStartsWith f.type "image/" <;> simp [hb]

theorem loadModelResolve_retryCount_le (out : LoadOutcome) (a : AppState)
    (h : a.retryCount ≤ 3) : (loadModelResolve out a).1.retryCount ≤ 3 := by
  cases out with
  | ok m => simp [loadModelResolve]
  | fail =>
    by_cases hlt : a.retryCount < 3
    · simp [loadModelResolve, hlt]; omega
    · simp [loadModelResolve, hlt]; exact h

theorem loadModelResolve_fail_modelRef (a : AppState) :
    (loadModelResolve .fail a).1.modelRef = a.modelRef := by
  by_cases hlt : a.retryCount < 3 <;> simp [loadModelResolve, hlt]

theorem step_retryCount_le (e : Event) (s s2 : SysState)
    (h : step e s = some s2) (hle : s.app.retryCount ≤ 3) : s2.app.retryCount ≤ 3 := by
  cases e with
  | loadResolve out =>
    simp only [step] at h
    split at h
    · exact absurd h (by simp)
    · simp only [Option.some.injEq] at h
      subst h
      exact loadModelResolve_retryCount_le out s.app hle
  | timerFire i =>
    simp only [step] at h
    cases hg : s.retryTimers.get? i <;> rw [hg] at h <;> simp at h
    subst h
    exact hle
  | retryClick =>
    simp only [step, Option.some.injEq] at h
    subst h
    exact Nat.zero_le 3
  | pick files =>
    simp only [step, Option.some.injEq] at h
    subst h
    show (handleImageUpload files s.app).1.retryCount ≤ 3
    rw [(handleImageUpload_frame files s.app).2.2]
    exact hle
  | dropFiles files =>
    simp only [step, Option.some.injEq] at h
    subst h
    show (handleDrop files s.app).1.retryCount ≤ 3
    rw [(handleDrop_frame files s.app).2.2]
    exact hle
  | readerDone i =>
    simp only [step] at h
    cases hg : s.pendingReads.get? i <;> rw [hg] at h <;> simp at h
    subst h
    exact hle
  | readerFail i =>
    simp only [step] at h
    cases hg : s.pendingReads.get? i <;> rw [hg] at h <;> simp at h
    subst h
    exact hle
  | imgDone i =>
    simp only [step] at h
    cases hg : s.pendingImgLoads.get? i <;> rw [hg] at h <;> simp at h
    subst h
    rename_i url
    show (analyzeImageStart url s.app).1.retryCount ≤ 3
    rw [(analyzeImageStart_frame url s.app).2.2]
    exact hle
  | imgFail i =>
    simp only [step] at h
    cases hg : s.pendingImgLoads.get? i <;> rw [hg] at h <;> simp at h
    subst h
    exact hle
  | classifyDone i out =>
    simp only [step] at h
    cases hg : s.pendingClassifies.get? i <;> rw [hg] at h <;> simp at h
    subst h
    show (analyzeImageResolve out s.app).retryCount ≤ 3
    rw [(analyzeImageResolve_frame out s.app).2.2]
    exact hle
  | clearClick =>
    simp only [step, Option.some.injEq] at h
    subst h
    exact hle

theorem step_modelRef_isSome (e : Event) (s s2 : SysState)
    (h : step e s = some s2) (hm : s.app.modelRef.isSome) : s2.app.modelRef.isSome := by
  cases e with
  | loadResolve out =>
    simp only [step] at h
    split at h
    · exact absurd h (by simp)
    · simp only [Option.some.injEq] at h
      subst h
      show (loadModelResolve out s.app).1.modelRef.isSome
      cases out with
      | ok m => simp [loadModelResolve]
      | fail => rw [loadModelResolve_fail_modelRef]; exact hm
  | timerFire i =>
    simp only [step] at h
    cases hg : s.retryTimers.get? i <;> rw [hg] at h <;> simp at h
    subst h
    exact hm
  | retryClick =>
    simp only [step, Option.some.injEq] at h
    subst h
    exact hm
  | pick files =>
    simp only [step, Option.some.injEq] at h
    subst h
    show (handleImageUpload files s.app).1.modelRef.isSome
    rw [(handleImageUpload_frame files s.app).2.1]
    exact hm
  | dropFiles files =>
    simp only [step, Option.some.injEq] at h
    subst h
    show (handleDrop files s.app).1.modelRef.isSome
    rw [(handleDrop_frame files s.app).2.1]
    exact hm
  | readerDone i =>
    simp only [step] at h
    cases hg : s.pendingReads.get? i <;> rw [hg] at h <;> simp at h
    subst h
    exact hm
  | readerFail i =>
    simp only [step] at h
    cases hg : s.pendingReads.get? i <;> rw [hg] at h <;> simp at h
    subst h
    exact hm
  | imgDone i =>
    simp only [step] at h
    cases hg : s.pendingImgLoads.get? i <;> rw [hg] at h <;> simp at h
    subst h
    rename_i url
    show (analyzeImageStart url s.app).1.modelRef.isSome
    rw [(analyzeImageStart_frame url s.app).2.1]
    exact hm
  | imgFail i =>
    simp only [step] at h
    cases hg : s.pendingImgLoads.get? i <;> rw [hg] at h <;> simp at h
    subst h
    exact hm
  | classifyDone i out =>
    simp only [step] at h
    cases hg : s.pendingClassifies.get? i <;> rw [hg] at h <;> simp at h
    subst h
    show (analyzeImageResolve out s.app).modelRef.isSome
    rw [(analyzeImageResolve_frame out s.app).2.1]
    exact hm
  | clearClick =>
    simp only [step, Option.some.injEq] at h
    subst h
    exact hm

theorem uiStep_uiInv (e : Event) (s s2 : SysState)
    (h : uiStep e s = some s2) (hI : uiInv s) : uiInv s2 := by
  obtain ⟨hsum, hdown⟩ := hI
  cases e with
  | loadResolve out =>
    simp only [uiStep, step] at h
    split at h
    · exact absurd h (by simp)
    · rename_i hne
      simp only [Option.some.injEq] at h
      subst h
      have hf1 : s.inFlightLoads = 1 := by omega
      have ht : s.retryTimers = [] := by
        have : s.retryTimers.length = 0 := by omega
        exact List.length_eq_zero.mp this
      cases out with
      | ok m =>
        constructor
        · show s.inFlightLoads - 1 +
            ((loadModelResolve (.ok m) s.app).2.toList ++ s.retryTimers).length ≤ 1
          simp [loadModelResolve, ht, hf1]
        · intro _
          constructor
          · show s.inFlightLoads - 1 = 0
            omega
          · show (loadModelResolve (.ok m) s.app).2.toList ++ s.retryTimers = []
            simp [loadModelResolve, ht]
      | fail =>
        by_cases hrc : s.app.retryCount < 3
        · constructor
          · show s.inFlightLoads - 1 +
              ((loadModelResolve .fail s.app).2.toList ++ s.retryTimers).length ≤ 1
            simp [loadModelResolve, hrc, ht, hf1]
          · intro hml
            exfalso
            have hml' : (loadModelResolve .fail s.app).1.isModelLoading = false := hml
            rw [show (loadModelResolve .fail s.app).1.isModelLoading
                  = s.app.isModelLoading by simp [loadModelResolve, hrc]] at hml'
            have := (hdown hml').1
            omega
        · constructor
          · show s.inFlightLoads - 1 +
              ((loadModelResolve .fail s.app).2.toList ++ s.retryTimers).length ≤ 1
            simp [loadModelResolve, hrc, ht, hf1]
          · intro _
            constructor
            · show s.inFlightLoads - 1 = 0
              omega
            · show (loadModelResolve .fail s.app).2.toList ++ s.retryTimers = []
              simp [loadModelResolve, hrc, ht]
  | timerFire i =>
    simp only [uiStep, step] at h
    cases hg : s.retryTimers.get? i <;> rw [hg] at h <;> simp at h
    subst h
    cases ht' : s.retryTimers with
    | nil => rw [ht'] at hg; simp at hg
    | cons a rest =>
      rw [ht'] at hsum
      simp only [List.length_cons] at hsum
      have hrest : rest = [] := by
        have : rest.length = 0 := by omega
        exact List.length_eq_zero.mp this
      have hi0 : i = 0 := by
        cases i with
        | zero => rfl
        | succ j => rw [ht', hrest] at hg; simp at hg
      have hif0 : s.inFlightLoads = 0 := by omega
      constructor
      · simp [hi0, hrest, hif0]
      · intro hml
        exfalso
        have hml' : (loadModelStart s.app).1.isModelLoading = false := hml
        simp [loadModelStart] at hml'
  | retryClick =>
    simp only [uiStep] at h
    split at h
    · rename_i hguard
      simp only [step, Option.some.injEq] at h
      subst h
      obtain ⟨hif0, ht0⟩ := hdown hguard.1
      constructor
      · show s.inFlightLoads + 1 + s.retryTimers.length ≤ 1
        rw [hif0, ht0]
        simp
      · intro hml
        exfalso
        have hml' : (handleRetry s.app).1.isModelLoading = false := hml
        simp [handleRetry, loadModelStart] at hml'
    · exact absurd h (by simp)
  | pick files =>
    simp only [uiStep, step, Option.some.injEq] at h
    subst h
    constructor
    · exact hsum
    · intro hml
      have hml' : (handleImageUpload files s.app).1.isModelLoading = false := hml
      rw [(handleImageUpload_frame files s.app).1] at hml'
      exact hdown hml'
  | dropFiles files =>
    simp only [uiStep, step, Option.some.injEq] at h
    subst h
    constructor
    · exact hsum
    · intro hml
      have hml' : (handleDrop files s.app).1.isModelLoading = false := hml
      rw [(handleDrop_frame files s.app).1] at hml'
      exact hdown hml'
  | readerDone i =>
    simp only [uiStep, step] at h
    cases hg : s.pendingReads.get? i <;> rw [hg] at h <;> simp at h
    subst h
    exact ⟨hsum, fun hml => hdown hml⟩
  | readerFail i =>
    simp only [uiStep, step] at h
    cases hg : s.pendingReads.get? i <;> rw [hg] at h <;> simp at h
    subst h
    exact ⟨hsum, fun hml => hdown hml⟩
  | imgDone i =>
    simp only [uiStep, step] at h
    cases hg : s.pendingImgLoads.get? i <;> rw [hg] at h <;> simp at h
    subst h
    rename_i url
    constructor
    · exact hsum
    · intro hml
      have hml' : (analyzeImageStart url s.app).1.isModelLoading = false := hml
      rw [(analyzeImageStart_frame url s.app).1] at hml'
      exact hdown hml'
  | imgFail i =>
    simp only [uiStep, step] at h
    cases hg : s.pendingImgLoads.get? i <;> rw [hg] at h <;> simp at h
    subst h
    exact ⟨hsum, fun hml => hdown hml⟩
  | classifyDone i out =>
    simp only [uiStep, step] at h
    cases hg : s.pendingClassifies.get? i <;> rw [hg] at h <;> simp at h
    subst h
    constructor
    · exact hsum
    · intro hml
      have hml' : (analyzeImageResolve out s.app).isModelLoading = false := hml
      rw [(analyzeImageResolve_frame out s.app).1] at hml'
      exact hdown hml'
  | clearClick =>
    simp only [uiStep, step, Option.some.injEq] at h
    subst h
    exact ⟨hsum, fun hml => hdown hml⟩

/-- C1: in the model-load run in which every attempt fails, exactly three automatic
retries are scheduled, each with a 2000 ms delay; after the n-th failure (n = 1, 2, 3)
the informational message is exactly the retry message of attempt n out of 3 and the
retry counter equals n; the 4th failure sets a terminal message distinct from every
retry message, schedules nothing, and no further automatic attempt is enabled. -/
theorem retry_fires_exactly_three_times :
    (run (failTrace 1) initSys).map
        (fun t => (t.app.error, t.retryTimers, t.app.retryCount))
      = some (some (retryMsg 1), [2000], 1) ∧
    (run (failTrace 2) initSys).map
        (fun t => (t.app.error, t.retryTimers, t.app.retryCount))
      = some (some (retryMsg 2), [2000], 2) ∧
    (run (failTrace 3) initSys).map
        (fun t => (t.app.error, t.retryTimers, t.app.retryCount))
      = some (some (retryMsg 3), [2000], 3) ∧
    (run (failTrace 4) initSys).map
        (fun t =>
          (t.app.error, t.retryTimers, t.app.retryCount, t.app.isModelLoading,
           t.inFlightLoads))
      = some (some terminalMsg, [], 3, false, 0) ∧
    (run (failTrace 4) initSys).bind (step (.loadResolve .fail)) = none ∧
    (run (failTrace 4) initSys).bind (step (.timerFire 0)) = none ∧
    retryMsg 1 ≠ terminalMsg ∧ retryMsg 2 ≠ terminalMsg ∧ retryMsg 3 ≠ terminalMsg := by
  refine ⟨rfl, rfl, rfl, rfl, rfl, rfl, by decide, by decide, by decide⟩

/-- C2 fails on the code: in the interleaving where image B is submitted while image
A's classify call is in flight and A's call resolves last, the final state holds B's
image together with A's nonempty predictions, although B's submission had cleared
them — the late resolution for the superseded image overwrites state belonging to B,
because the source applies setPredictions with no check that the request is still the
active one. -/
theorem late_classify_overwrites_state :
    (run raceTrace initSys).map
        (fun t => (t.app.image, t.app.predictions, t.pendingClassifies))
      = some (some (dataUrlOf jpgFile), predsA, []) ∧
    predsA ≠ predsB ∧ predsA ≠ [] := by
  refine ⟨rfl, by decide, by decide⟩

/-- C3: invoking analyzeImage while no model handle is loaded fails immediately with
the not-ready error message and performs no inference: no classify request is issued,
and the predictions, analyzing flag, image and model handle are all unchanged. -/
theorem analyze_without_model_fails_fast (a : AppState) (url : String)
    (h : a.modelRef = none) :
    (analyzeImageStart url a).1.error = some modelNotLoadedMsg ∧
    (analyzeImageStart url a).2 = none ∧
    (analyzeImageStart url a).1.predictions = a.predictions ∧
    (analyzeImageStart url a).1.isAnalyzing = a.isAnalyzing ∧
    (analyzeImageStart url a).1.image = a.image ∧
    (analyzeImageStart url a).1.modelRef = a.modelRef := by
  simp [analyzeImageStart, h]

/-- C3 witness at the initial state. -/
theorem analyze_without_model_fails_fast_witness :
    initialApp.modelRef = none ∧
    ((analyzeImageStart "u" initialApp).1.error = some modelNotLoadedMsg ∧
     (analyzeImageStart "u" initialApp).2 = none ∧
     (analyzeImageStart "u" initialApp).1.predictions = initialApp.predictions ∧
     (analyzeImageStart "u" initialApp).1.isAnalyzing = initialApp.isAnalyzing ∧
     (analyzeImageStart "u" initialApp).1.image = initialApp.image ∧
     (analyzeImageStart "u" initialApp).1.modelRef = initialApp.modelRef) :=
  ⟨rfl, analyze_without_model_fails_fast initialApp "u" rfl⟩

/-- C4: a submitted file, via picker or drop, whose MIME type does not start with the
prefix "image/" is rejected with the unsupported-type error and no other state
change: the resulting component state is exactly the prior state with only the error
message replaced, and no file read is started. -/
theorem nonimage_file_rejected (f : File) (rest : List File) (a : AppState)
    (h : strStartsWith f.type "image/" = false) :
    handleImageUpload (f :: rest) a = ({ a with error := some unsupportedMsg }, none) ∧
    handleDrop (f :: rest) a = ({ a with error := some unsupportedMsg }, none) := by
  constructor <;> simp [handleImageUpload, handleDrop, h]

/-- C4 witness at a text file. -/
theorem nonimage_file_rejected_witness :
    strStartsWith txtFile.type "image/" = false ∧
    (handleImageUpload [txtFile] initialApp
        = ({ initialApp with error := some unsupportedMsg }, none) ∧
     handleDrop [txtFile] initialApp
        = ({ initialApp with error := some unsupportedMsg }, none)) :=
  ⟨by decide, nonimage_file_rejected txtFile [] initialApp (by decide)⟩

/-- C5: over every raw event trace from the initial state the retry counter never
exceeds 3; every successful load resolution resets it to 0 whatever its prior value;
and every manual retry invocation resets it to 0. -/
theorem retry_counter_bounded_and_reset :
    (∀ es t, run es initSys = some t → t.app.retryCount ≤ 3) ∧
    (∀ m a, (loadModelResolve (.ok m) a).1.retryCount = 0) ∧
    (∀ a, (handleRetry a).1.retryCount = 0) := by
  refine ⟨?_, ?_, ?_⟩
  · intro es t hr
    exact run_inv (fun u => u.app.retryCount ≤ 3) step_retryCount_le es initSys t hr
      (by decide)
  · intro m a
    rfl
  · intro a
    rfl

/-- C5 witness: the empty trace, a successful resolution from counter 3, and a manual
retry from counter 3. -/
theorem retry_counter_bounded_and_reset_witness :
    initSys.app.retryCount ≤ 3 ∧
    (loadModelResolve (.ok 7) { initialApp with retryCount := 3 }).1.retryCount = 0 ∧
    (handleRetry { initialApp with retryCount := 3 }).1.retryCount = 0 :=
  ⟨retry_counter_bounded_and_reset.1 [] initSys rfl,
   retry_counter_bounded_and_reset.2.1 7 { initialApp with retryCount := 3 },
   retry_counter_bounded_and_reset.2.2 { initialApp with retryCount := 3 }⟩

/-- C6 counterexample: invoking the load entry point from a state holding a model
handle leaves the handle in place instead of clearing it. -/
theorem start_does_not_clear_handle :
    (loadModelStart readyApp).1.modelRef = some 1 ∧
    (loadModelStart readyApp).1.modelRef ≠ none :=
  ⟨rfl, by decide⟩

/-- C6 amended: every invocation of the load entry point clears the error message and
raises the loading flag before the asynchronous load begins, leaves any existing
model handle untouched, and issues the load with the fixed constant configuration
(model version 2, capacity factor 1.0). -/
theorem start_clears_error_fixed_config (a : AppState) :
    (loadModelStart a).1.error = none ∧
    (loadModelStart a).1.isModelLoading = true ∧
    (loadModelStart a).1.modelRef = a.modelRef ∧
    (loadModelStart a).2 = mobilenetLoadConfig ∧
    mobilenetLoadConfig.version = 2 ∧
    mobilenetLoadConfig.alpha = 1 :=
  ⟨rfl, rfl, rfl, rfl, rfl, rfl⟩

/-- C7 counterexample: the controller has no in-flight guard; when the manual retry
entry point is invoked while the automatic retry timer of a failed attempt is pending
and the timer then fires, two load attempts are in flight simultaneously. -/
theorem retry_during_pending_timer_overlaps :
    (run unguardedRetryTrace initSys).map (fun t => t.inFlightLoads) = some 2 := rfl

/-- C7 amended: the at-most-one-load-in-flight property holds under the UI constraint
that the manual retry entry point is reachable solely when the loading flag is down:
every reachable system state of the UI-constrained semantics has at most one load
attempt in flight. -/
theorem single_load_in_flight_under_ui (es : List Event) (t : SysState)
    (h : uiRun es initSys = some t) : t.inFlightLoads ≤ 1 := by
  have hinv : uiInv t := by
    refine uiRun_inv uiInv uiStep_uiInv es initSys t h ?_
    constructor
    · decide
    · intro hml
      exact absurd hml (by decide)
  obtain ⟨h1, _⟩ := hinv
  omega

/-- C7 amended witness at the empty trace. -/
theorem single_load_in_flight_under_ui_witness :
    uiRun [] initSys = some initSys ∧ initSys.inFlightLoads ≤ 1 :=
  ⟨rfl, single_load_in_flight_under_ui [] initSys rfl⟩

/-- C8: the analyze entry point with a loaded model requests exactly 5 predictions
from the model; the classify resolution stores the returned list unchanged; hence
whenever the model's returned list is sorted by non-increasing probability with
length at most 5 and probabilities in the unit interval, the stored prediction list
has exactly those properties. -/
theorem classify_topk_sorted (a a2 : AppState) (url : String) (m : Nat)
    (preds : List Prediction) (hm : a.modelRef = some m)
    (hs : sortedDesc preds) (hl : preds.length ≤ 5) (hp : probsValid preds) :
    (analyzeImageStart url a).2 = some (url, 5) ∧
    (analyzeImageResolve (.ok preds) a2).predictions = preds ∧
    sortedDesc (analyzeImageResolve (.ok preds) a2).predictions ∧
    (analyzeImageResolve (.ok preds) a2).predictions.length ≤ 5 ∧
    probsValid (analyzeImageResolve (.ok preds) a2).predictions := by
  refine ⟨?_, rfl, hs, hl, hp⟩
  simp [analyzeImageStart, hm]

/-- C8 witness at a two-element sorted output. -/
theorem classify_topk_sorted_witness :
    readyApp.modelRef = some 1 ∧ sortedDesc samplePreds ∧ samplePreds.length ≤ 5 ∧
    probsValid samplePreds ∧
    ((analyzeImageStart "u" readyApp).2 = some ("u", 5) ∧
     (analyzeImageResolve (.ok samplePreds) readyApp).predictions = samplePreds ∧
     sortedDesc (analyzeImageResolve (.ok samplePreds) readyApp).predictions ∧
     (analyzeImageResolve (.ok samplePreds) readyApp).predictions.length ≤ 5 ∧
     probsValid (analyzeImageResolve (.ok samplePreds) readyApp).predictions) :=
  ⟨rfl, by simp [sortedDesc, samplePreds], by simp [samplePreds],
   by simp [probsValid, samplePreds],
   classify_topk_sorted readyApp readyApp "u" 1 samplePreds rfl
     (by simp [sortedDesc, samplePreds]) (by simp [samplePreds])
     (by simp [probsValid, samplePreds])⟩

/-- C9: once a model handle is loaded it is never set back to none: over every raw
event trace a present handle stays present, a failed load resolution leaves the
handle exactly as it was, and with a present handle the analyze entry point still
issues a classify request with topK 5 rather than failing. -/
theorem model_handle_persistent :
    (∀ es t t2, run es t = some t2 →
      t.app.modelRef.isSome → t2.app.modelRef.isSome) ∧
    (∀ a, (loadModelResolve .fail a).1.modelRef = a.modelRef) ∧
    (∀ a url m, a.modelRef = some m → (analyzeImageStart url a).2 = some (url, 5)) := by
  refine ⟨?_, ?_, ?_⟩
  · intro es t t2 hr hm
    exact run_inv (fun u => u.app.modelRef.isSome) step_modelRef_isSome es t t2 hr hm
  · exact loadModelResolve_fail_modelRef
  · intro a url m hm
    simp [analyzeImageStart, hm]

/-- C9 witness at a state holding a loaded handle. -/
theorem model_handle_persistent_witness :
    readySys.app.modelRef.isSome ∧
    (loadModelResolve .fail readyApp).1.modelRef = readyApp.modelRef ∧
    readyApp.modelRef = some 1 ∧
    (analyzeImageStart "u" readyApp).2 = some ("u", 5) :=
  ⟨model_handle_persistent.1 [] readySys readySys rfl (by decide),
   model_handle_persistent.2.1 readyApp,
   rfl,
   model_handle_persistent.2.2 readyApp "u" 1 rfl⟩

/-- C10: the picker change handler with an empty selection returns with no state
change at all, while a drop event carrying no file sets the unsupported-type error
message. -/
theorem empty_picker_noop_empty_drop_errors (a : AppState) :
    handleImageUpload [] a = (a, none) ∧
    handleDrop [] a = ({ a with error := some unsupportedMsg }, none) :=
  ⟨rfl, rfl⟩

end ImageAnalyze
